import Mathlib

/-!
Verification of the ImageBoardInsights core against its specification.

The definitions below are a shallow embedding of the Python source under
src/: pure functions become Lean functions, stateful methods become
explicit state passing, Python exceptions become Except values with an
explicit error kind.  The fingerprint function md5 is applied by the
source to a deterministic request string; since md5 is a function, two
fingerprints are equal whenever their request strings are equal, so the
fingerprint properties are verified at the request-string level.
-/

namespace ImageBoardInsights

/-- Python exception kinds raised by the embedded code paths. -/
inductive PyErr
  | attributeError
  | assertionError
  | keyError
  | indexError
deriving DecidableEq

/-! ## Fingerprinting: ImageBoardIterator._hash (src/src/api/iterators.py, lines 215-224)

The source builds hash_pieces from the username and the endpoint, renders
each request_data entry as an f-string piece (sorting list-valued
parameters), sorts the rendered pieces, extends hash_pieces with them,
joins with an underscore and md5-hashes the joined string.  The variable
filter_data is computed and sorted by the source but never added to
hash_pieces. -/

/-- A request-parameter value: a Python str or a Python list of str. -/
inductive RVal
  | str (v : String)
  | strList (vs : List String)
deriving DecidableEq

/-- Lexicographic code-point comparison of char lists: the order Python
uses to compare strings. -/
def strLeChars : List Char → List Char → Bool
  | [], _ => true
  | _ :: _, [] => false
  | a :: as, b :: bs =>
    if a.toNat < b.toNat then true
    else if b.toNat < a.toNat then false
    else strLeChars as bs

/-- Python string comparison, as a proposition usable for sorting. -/
def strLeP (a b : String) : Prop := strLeChars a.data b.data = true

instance : DecidableRel strLeP := fun a b =>
  instDecidableEqBool (strLeChars a.data b.data) true

lemma strLeChars_total : ∀ as bs : List Char,
    strLeChars as bs = true ∨ strLeChars bs as = true
  | [], bs => by left; cases bs <;> rfl
  | a :: as, [] => by right; rfl
  | a :: as, b :: bs => by
    rcases Nat.lt_trichotomy a.toNat b.toNat with h | h | h
    · left; simp only [strLeChars]; rw [if_pos h]
    · have h1 : ¬ a.toNat < b.toNat := by omega
      have h2 : ¬ b.toNat < a.toNat := by omega
      simp only [strLeChars]
      rw [if_neg h1, if_neg h2, if_neg h2, if_neg h1]
      exact strLeChars_total as bs
    · right; simp only [strLeChars]; rw [if_pos h]

lemma strLeChars_trans : ∀ as bs cs : List Char,
    strLeChars as bs = true → strLeChars bs cs = true → strLeChars as cs = true
  | [], bs, cs => by intro _ _; rfl
  | a :: as, [], cs => by intro h _; exact absurd h (by simp [strLeChars])
  | a :: as, b :: bs, [] => by intro _ h; exact absurd h (by simp [strLeChars])
  | a :: as, b :: bs, c :: cs => by
    intro h1 h2
    simp only [strLeChars] at h1 h2 ⊢
    split_ifs at h1 h2 ⊢ <;>
      first
        | rfl
        | omega
        | exact strLeChars_trans as bs cs h1 h2

lemma strLeChars_antisymm : ∀ as bs : List Char,
    strLeChars as bs = true → strLeChars bs as = true → as = bs
  | [], [] => by intro _ _; rfl
  | [], b :: bs => by intro _ h; exact absurd h (by simp [strLeChars])
  | a :: as, [] => by intro h _; exact absurd h (by simp [strLeChars])
  | a :: as, b :: bs => by
    intro h1 h2
    simp only [strLeChars] at h1 h2
    by_cases hab : a.toNat < b.toNat
    · rw [if_neg (by omega : ¬ b.toNat < a.toNat), if_pos hab] at h2
      exact absurd h2 (by simp)
    · by_cases hba : b.toNat < a.toNat
      · rw [if_neg hab, if_pos hba] at h1
        exact absurd h1 (by simp)
      · rw [if_neg hab, if_neg hba] at h1
        rw [if_neg hba, if_neg hab] at h2
        have hn : a.toNat = b.toNat := by omega
        have hc : a = b := Char.eq_of_val_eq (UInt32.toNat.inj hn)
        rw [hc, strLeChars_antisymm as bs h1 h2]

instance : IsTotal String strLeP :=
  ⟨fun a b => strLeChars_total a.data b.data⟩

instance : IsTrans String strLeP :=
  ⟨fun _ _ _ h1 h2 => strLeChars_trans _ _ _ h1 h2⟩

instance : IsAntisymm String strLeP :=
  ⟨fun a b h1 h2 => by
    cases a; cases b
    exact congrArg String.mk (strLeChars_antisymm _ _ h1 h2)⟩

/-- The ascending sort used for Python list.sort() and sorted() on strings. -/
def sortStrings (l : List String) : List String :=
  List.insertionSort strLeP l

/-- The single-quote character used by Python repr of a string. -/
def pyQuote : String := "\x27"

/-- Python str() of a list of strings, as produced by f-string interpolation. -/
def pyListStr (vs : List String) : String :=
  "[" ++ String.intercalate ", " (vs.map (fun v => pyQuote ++ v ++ pyQuote)) ++ "]"

/-- One rendered request_data entry: the Python piece built by
the comprehension in _hash, with list values sorted. -/
def renderParam : String × RVal → String
  | (k, RVal.str v) => k ++ ":" ++ v
  | (k, RVal.strList vs) => k ++ ":" ++ pyListStr (sortStrings vs)

/-- The string that _hash feeds to md5: username and endpoint followed by
the sorted rendered request parameters, joined by an underscore.  The
filters are received (as their canonical repr strings) and sorted exactly
as in the source, but the source never appends filter_data to
hash_pieces, so the result does not depend on them. -/
def requestString (username endpoint : String) (requestData : List (String × RVal))
    (filters : List String) : String :=
  let rendered := sortStrings (requestData.map renderParam)
  let _filterData := sortStrings filters
  String.intercalate "_" ([username, endpoint] ++ rendered)

/-- Normalising a parameter: sort a list value, leave a plain value alone.
Two supplied parameter lists describe the same logical query when their
normalised forms are permutations of each other. -/
def normalizeParam : String × RVal → String × RVal
  | (k, RVal.str v) => (k, RVal.str v)
  | (k, RVal.strList vs) => (k, RVal.strList (sortStrings vs))

lemma sortStrings_eq_of_perm {l₁ l₂ : List String} (h : l₁.Perm l₂) :
    sortStrings l₁ = sortStrings l₂ :=
  List.eq_of_perm_of_sorted
    (((List.perm_insertionSort _ l₁).trans h).trans (List.perm_insertionSort _ l₂).symm)
    (List.sorted_insertionSort _ l₁) (List.sorted_insertionSort _ l₂)

lemma sortStrings_idem (l : List String) :
    sortStrings (sortStrings l) = sortStrings l :=
  List.Sorted.insertionSort_eq (List.sorted_insertionSort _ l)

lemma renderParam_normalizeParam (p : String × RVal) :
    renderParam (normalizeParam p) = renderParam p := by
  obtain ⟨k, v⟩ := p
  cases v with
  | str v => rfl
  | strList vs => simp [normalizeParam, renderParam, sortStrings_idem]

lemma map_renderParam_normalize (rd : List (String × RVal)) :
    (rd.map normalizeParam).map renderParam = rd.map renderParam := by
  rw [List.map_map]
  exact List.map_congr_left (fun p _ => renderParam_normalizeParam p)

/-- Claim C9: two iterators built with identical requester identity,
endpoint and request parameters, where the parameters are supplied in
different key orders and list-valued parameter elements in different
orders, receive identical fingerprints. -/
theorem claim_C9_fingerprint_order_insensitive (username endpoint : String)
    (rd₁ rd₂ : List (String × RVal)) (filters : List String)
    (h : (rd₁.map normalizeParam).Perm (rd₂.map normalizeParam)) :
    requestString username endpoint rd₁ filters
      = requestString username endpoint rd₂ filters := by
  unfold requestString
  have h1 : (rd₁.map renderParam).Perm (rd₂.map renderParam) := by
    rw [← map_renderParam_normalize rd₁, ← map_renderParam_normalize rd₂]
    exact h.map renderParam
  rw [sortStrings_eq_of_perm h1]

/-- Witness for C9 at a concrete input: the same two parameters supplied
in swapped key order, with the list-valued parameter in reversed order. -/
theorem claim_C9_witness :
    (([("limit", RVal.str "320"), ("tags", RVal.strList ["b", "a"])].map normalizeParam).Perm
      ([("tags", RVal.strList ["a", "b"]), ("limit", RVal.str "320")].map normalizeParam))
    ∧ requestString "user" "https://e.net/posts.json"
        [("limit", RVal.str "320"), ("tags", RVal.strList ["b", "a"])] []
      = requestString "user" "https://e.net/posts.json"
        [("tags", RVal.strList ["a", "b"]), ("limit", RVal.str "320")] [] :=
  ⟨by decide,
    claim_C9_fingerprint_order_insensitive "user" "https://e.net/posts.json"
      [("limit", RVal.str "320"), ("tags", RVal.strList ["b", "a"])]
      [("tags", RVal.strList ["a", "b"]), ("limit", RVal.str "320")] [] (by decide)⟩

/-- Claim C1 (code bug evaluation): the source computes filter_data but
never adds it to hash_pieces, so two iterators with the same requester
identity, endpoint and request parameters but different filter sets get
the same request string, hence the same md5 fingerprint and the same
cache file — contrary to the claim that the fingerprints differ. -/
theorem claim_C1_filters_do_not_change_fingerprint :
    requestString "user" "https://e.net/posts.json"
      [("tags", RVal.str "cat dog order:id"), ("limit", RVal.str "320")]
      ["ScoreFilter(min_score=10)"]
    = requestString "user" "https://e.net/posts.json"
      [("tags", RVal.str "cat dog order:id"), ("limit", RVal.str "320")]
      [] := rfl

/-! ## Page-number pagination: ImageBoardIterator
(src/src/api/iterators.py, lines 154-206)

The network boundary is modelled by a function pages : Nat → List α giving
the item array of each page (the source unwraps the first key of the JSON
response; the unwrapped array is what matters here). -/

/-- The cursor of a page-number iterator: _next_page and starting_page. -/
structure PageState where
  nextPage : Option Nat
  startingPage : Nat
deriving DecidableEq

variable {α : Type}

/-- _filter_page_items: keep the items on which every registered filter is true. -/
def filterPageItems (filters : List (α → Bool)) (pageItems : List α) : List α :=
  pageItems.filter (fun item => filters.all (fun f => f item))

/-- _handle_ImageBoard_page_items: an empty page gives [], an empty filter
list (falsy in Python) leaves the page unchanged, a fully filtered page
gives [], otherwise the filtered page is returned. -/
def handlePageItems (filters : List (α → Bool)) (pageItems : List α) : List α :=
  if pageItems.isEmpty then []
  else if filters.isEmpty then pageItems
  else
    let filtered := filterPageItems filters pageItems
    if filtered.isEmpty then [] else filtered

/-- _handle_ImageBoard_page: an empty raw page is returned as is; on a
non-empty raw page _next_page becomes page+1; if the filter chain removes
every item the source resets _next_page to page and then calls
self._get_next_page(), a method that exists nowhere in the hierarchy, so
the extension raises AttributeError instead of fetching another page. -/
def handlePage (filters : List (α → Bool)) (pageItems : List α) (page : Nat)
    (s : PageState) : Except PyErr (List α × PageState) :=
  if pageItems.isEmpty then .ok ([], s)
  else
    let handled := handlePageItems filters pageItems
    if handled.isEmpty then .error PyErr.attributeError
    else .ok (handled, ⟨some (page + 1), s.startingPage⟩)

/-- _get_next_data for page-number iterators: take the current page (falling
back to starting_page when _next_page is None), request it, handle it, and
increment _next_page once more when items survived. -/
def getNextData (filters : List (α → Bool)) (pages : Nat → List α)
    (s : PageState) : Except PyErr (List α × PageState) :=
  let page := match s.nextPage with
    | none => s.startingPage
    | some p => p
  match handlePage filters (pages page) page ⟨some page, s.startingPage⟩ with
  | .error e => .error e
  | .ok (finalItems, s2) =>
    if finalItems.isEmpty then .ok (finalItems, s2)
    else .ok (finalItems, ⟨s2.nextPage.map (· + 1), s2.startingPage⟩)

/-- The pages requested by n successive cache extensions, in order; an
extension that raises contributes its own request and stops the trace. -/
def extendPages (filters : List (α → Bool)) (pages : Nat → List α) :
    PageState → Nat → List Nat
  | _, 0 => []
  | s, n + 1 =>
    let page := match s.nextPage with
      | none => s.startingPage
      | some p => p
    match getNextData filters pages s with
    | .error _ => [page]
    | .ok (_, s2) => page :: extendPages filters pages s2 n

lemma getNextData_empty (filters : List (α → Bool)) (pages : Nat → List α)
    (s : PageState) (p : Nat) (hs : s.nextPage = some p) (h0 : pages p = []) :
    getNextData filters pages s = .ok ([], ⟨some p, s.startingPage⟩) := by
  unfold getNextData handlePage
  rw [hs]
  simp [h0]

lemma getNextData_filteredOut (filters : List (α → Bool)) (pages : Nat → List α)
    (s : PageState) (p : Nat) (hs : s.nextPage = some p) (h0 : pages p ≠ [])
    (h1 : handlePageItems filters (pages p) = []) :
    getNextData filters pages s = .error PyErr.attributeError := by
  unfold getNextData handlePage
  rw [hs]
  simp [h0, h1]

lemma getNextData_ok (filters : List (α → Bool)) (pages : Nat → List α)
    (s : PageState) (p : Nat) (hs : s.nextPage = some p) (h0 : pages p ≠ [])
    (h1 : handlePageItems filters (pages p) ≠ []) :
    getNextData filters pages s
      = .ok (handlePageItems filters (pages p), ⟨some (p + 2), s.startingPage⟩) := by
  unfold getNextData handlePage
  rw [hs]
  simp [h0, h1]

lemma extendPages_lb (filters : List (α → Bool)) (pages : Nat → List α) :
    ∀ (n : Nat) (s : PageState) (p B : Nat), s.nextPage = some p → B ≤ p →
      ∀ q ∈ extendPages filters pages s n, B ≤ q := by
  intro n
  induction n with
  | zero => intro s p B _ _ q hq; exact absurd hq (by simp [extendPages])
  | succ n ih =>
    intro s p B hs hB q hq
    rw [extendPages] at hq
    rw [hs] at hq
    by_cases h0 : pages p = []
    · rw [getNextData_empty filters pages s p hs h0] at hq
      simp only [List.mem_cons] at hq
      rcases hq with rfl | hq
      · exact hB
      · exact ih ⟨some p, s.startingPage⟩ p B rfl hB q hq
    · by_cases h1 : handlePageItems filters (pages p) = []
      · rw [getNextData_filteredOut filters pages s p hs h0 h1] at hq
        simp only [List.mem_singleton] at hq
        omega
      · rw [getNextData_ok filters pages s p hs h0 h1] at hq
        simp only [List.mem_cons] at hq
        rcases hq with rfl | hq
        · exact hB
        · exact ih ⟨some (p + 2), s.startingPage⟩ (p + 2) B rfl (by omega) q hq

/-- Claim C2 (code bug evaluation): a page-number iterator extension whose
raw page 3 has ten items that are all removed by the filter chain does not
fetch page 4: the source calls self._get_next_page(), a method that does not
exist, so the extension raises AttributeError and next_page is not advanced
to page 4. -/
theorem claim_C2_fully_filtered_page_raises :
    getNextData [fun _ => false] (fun _ => [0, 1, 2, 3, 4, 5, 6, 7, 8, 9])
      ⟨some 3, 1⟩ = .error PyErr.attributeError := rfl

/-- Claim C3: an extension of a page-number iterator that fetches a
non-empty page p with at least one item surviving the filter chain leaves
_next_page at p + 2 (incremented once in _handle_ImageBoard_page and once
more in _get_next_data), and every page requested by subsequent extensions
is at least p + 2, so page p + 1 is never requested again. -/
theorem claim_C3_next_page_is_p_plus_two (filters : List (α → Bool))
    (pages : Nat → List α) (p sp n : Nat)
    (hraw : pages p ≠ [])
    (hsurv : handlePageItems filters (pages p) ≠ []) :
    getNextData filters pages ⟨some p, sp⟩
      = .ok (handlePageItems filters (pages p), ⟨some (p + 2), sp⟩)
    ∧ (extendPages filters pages ⟨some (p + 2), sp⟩ n).all
        (fun q => decide (p + 2 ≤ q)) = true := by
  constructor
  · exact getNextData_ok filters pages ⟨some p, sp⟩ p rfl hraw hsurv
  · rw [List.all_eq_true]
    intro q hq
    have := extendPages_lb filters pages n ⟨some (p + 2), sp⟩ (p + 2) (p + 2)
      rfl (le_refl _) q hq
    simpa using this

/-- Witness for C3 at a concrete input: page 3 returns [0, 1], the single
filter keeps both items, so _next_page afterwards is 5 and the next three
extensions only request pages numbered at least 5. -/
theorem claim_C3_witness :
    ((fun _ => [0, 1] : Nat → List Nat) 3 ≠ []
      ∧ handlePageItems [fun x => decide (x ≤ 1)]
          ((fun _ => [0, 1] : Nat → List Nat) 3) ≠ [])
    ∧ (getNextData [fun x => decide (x ≤ 1)] (fun _ => [0, 1]) ⟨some 3, 1⟩
        = .ok (handlePageItems [fun x => decide (x ≤ 1)]
            ((fun _ => [0, 1] : Nat → List Nat) 3), ⟨some 5, 1⟩)
      ∧ (extendPages [fun x => decide (x ≤ 1)] (fun _ => [0, 1]) ⟨some 5, 1⟩ 3).all
          (fun q => decide (5 ≤ q)) = true) :=
  ⟨⟨by decide, by decide⟩,
    claim_C3_next_page_is_p_plus_two [fun x => decide (x ≤ 1)] (fun _ => [0, 1])
      3 1 3 (by decide) (by decide)⟩

/-! ## Disk cache: DiskCache (src/src/api/iterators.py, lines 47-152)

The pluggable source (_get_next_data of the subclass) is modelled by the
list of batches it will yield on successive calls; after the list is spent
every further call yields the empty batch. -/

/-- The observable state of a DiskCache: the cached records (_df), the
batches the source will yield next, and cache_source_available. -/
structure CacheState (α : Type) where
  df : List α
  batches : List (List α)
  available : Bool
deriving DecidableEq

/-- _append_from_source: ask the source for the next batch; an empty batch
sets cache_source_available to False and reports failure; a non-empty batch
is appended and persisted, cache_source_available becomes True. -/
def appendFromSource (s : CacheState α) : Bool × CacheState α :=
  match s.batches with
  | [] => (false, ⟨s.df, [], false⟩)
  | b :: rest =>
    if b.isEmpty then (false, ⟨s.df, rest, false⟩)
    else (true, ⟨s.df ++ b, rest, true⟩)

lemma appendFromSource_measure (s : CacheState α) :
    2 * (appendFromSource s).2.batches.length
        + (if (appendFromSource s).2.available then 1 else 0)
      < 2 * s.batches.length + 1 := by
  cases hb : s.batches with
  | nil => simp [appendFromSource, hb]
  | cons b rest =>
    by_cases he : b.isEmpty
    all_goals simp [appendFromSource, hb, he]
    all_goals omega

/-- DiskCache.__getitem__: in-range access reads the record; out-of-range
access appends from the source and retries while cache_source_available,
and raises IndexError once it is False. -/
def getitem (s : CacheState α) (i : Nat) : Except PyErr α :=
  if h : i < s.df.length then .ok (s.df.get ⟨i, h⟩)
  else if ha : s.available then getitem (appendFromSource s).2 i
  else .error PyErr.indexError
termination_by 2 * s.batches.length + (if s.available then 1 else 0)
decreasing_by
  simp only [ha]
  exact appendFromSource_measure s

/-- Claim C4: an index access beyond the cached record count extends from
the source and retries while cache_source_available is True; once it is
False the access raises IndexError instead of retrying; and an extension
that received an empty batch has set cache_source_available to False. -/
theorem claim_C4_out_of_bounds_access (s : CacheState α) (i : Nat)
    (h : s.df.length ≤ i) :
    (s.available = true → getitem s i = getitem (appendFromSource s).2 i)
    ∧ (s.available = false → getitem s i = .error PyErr.indexError)
    ∧ ((appendFromSource s).1 = false → (appendFromSource s).2.available = false) := by
  refine ⟨?_, ?_, ?_⟩
  · intro ha
    rw [getitem, dif_neg (by omega), dif_pos ha]
  · intro ha
    rw [getitem, dif_neg (by omega), dif_neg (by simp [ha])]
  · intro hf
    cases hb : s.batches with
    | nil => simp [appendFromSource, hb]
    | cons b rest =>
      by_cases he : b.isEmpty
      · simp [appendFromSource, hb, he]
      · simp [appendFromSource, hb, he] at hf

/-- Witness for C4 at a concrete input: one cached record, one pending
batch, index 1 out of bounds. -/
theorem claim_C4_witness :
    ((⟨[5], [[7, 8]], true⟩ : CacheState Nat).df.length ≤ 1)
    ∧ (((⟨[5], [[7, 8]], true⟩ : CacheState Nat).available = true →
          getitem (⟨[5], [[7, 8]], true⟩ : CacheState Nat) 1
            = getitem (appendFromSource ⟨[5], [[7, 8]], true⟩).2 1)
      ∧ ((⟨[5], [[7, 8]], true⟩ : CacheState Nat).available = false →
          getitem (⟨[5], [[7, 8]], true⟩ : CacheState Nat) 1 = .error PyErr.indexError)
      ∧ ((appendFromSource (⟨[5], [[7, 8]], true⟩ : CacheState Nat)).1 = false →
          (appendFromSource (⟨[5], [[7, 8]], true⟩ : CacheState Nat)).2.available = false)) :=
  ⟨by decide, claim_C4_out_of_bounds_access ⟨[5], [[7, 8]], true⟩ 1 (by decide)⟩

/-! ## Result retrieval: ThreadManager.get_result (src/src/api/main.py,
lines 130-143)

The result tray is an association list from job ids to results.  The model
covers the steady state in which all submitted jobs have completed, so the
controller thread is found dead at every poll and each iteration of the
wait loop restarts it and increments start_attempts; the default timeout
of -1 disables the deadline check. -/

/-- Python dict membership/lookup on the result tray. -/
def trayFind (tray : List (String × ρ)) (job : String) : Option ρ :=
  match tray with
  | [] => none
  | (k, v) :: rest => if k = job then some v else trayFind rest job

/-- Removal performed by dict.pop. -/
def trayErase (tray : List (String × ρ)) (job : String) : List (String × ρ) :=
  match tray with
  | [] => []
  | (k, v) :: rest => if k = job then rest else (k, v) :: trayErase rest job

/-- get_result with timeout -1: return and destructively pop the stored
result if present; otherwise poll, restart the dead controller, count the
restart attempt, and raise KeyError (reported with the attempt count) once
more than 5 attempts have been made. -/
def getResultAux (tray : List (String × ρ)) (job : String) (attempts : Nat) :
    Except (PyErr × Nat) (ρ × List (String × ρ)) :=
  match trayFind tray job with
  | some r => .ok (r, trayErase tray job)
  | none =>
    if attempts + 1 > 5 then .error (PyErr.keyError, attempts + 1)
    else getResultAux tray job (attempts + 1)
termination_by 6 - attempts
decreasing_by omega

/-- get_result as called, with start_attempts = 0. -/
def getResult (tray : List (String × ρ)) (job : String) :
    Except (PyErr × Nat) (ρ × List (String × ρ)) :=
  getResultAux tray job 0

lemma trayFind_erase_of_nodup (tray : List (String × ρ)) (job : String)
    (hnd : (tray.map Prod.fst).Nodup) :
    trayFind (trayErase tray job) job = none := by
  induction tray with
  | nil => rfl
  | cons kv rest ih =>
    obtain ⟨k, v⟩ := kv
    simp only [List.map_cons, List.nodup_cons] at hnd
    by_cases hk : k = job
    · subst hk
      rw [trayErase, if_pos rfl]
      clear ih
      induction rest with
      | nil => rfl
      | cons kv2 rest2 ih2 =>
        obtain ⟨k2, v2⟩ := kv2
        simp only [List.map_cons, List.mem_cons, List.nodup_cons] at hnd
        rw [trayFind, if_neg (by tauto)]
        exact ih2 ⟨by tauto, hnd.2.2⟩
    · rw [trayErase, if_neg hk, trayFind, if_neg hk]
      exact ih hnd.2

lemma getResultAux_none (tray : List (String × ρ)) (job : String)
    (hf : trayFind tray job = none) :
    ∀ k a, a + k = 6 → 0 < k →
      getResultAux tray job a = .error (PyErr.keyError, 6) := by
  intro k
  induction k with
  | zero => omega
  | succ k ih =>
    intro a h6 _
    rw [getResultAux, hf]
    by_cases ha : a + 1 > 5
    · rw [if_pos ha]
      have : a + 1 = 6 := by omega
      rw [this]
    · rw [if_neg ha]
      exact ih (a + 1) (by omega) (by omega)

/-- Claim C5: when a job's result is stored, get_result returns it and
destructively removes it from the tray; a second call for the same job id
finds nothing and raises KeyError after more than 5 controller-restart
attempts (the sixth attempt raises). -/
theorem claim_C5_result_popped_exactly_once (tray : List (String × ρ))
    (job : String) (r : ρ)
    (hfound : trayFind tray job = some r)
    (hnd : (tray.map Prod.fst).Nodup) :
    getResult tray job = .ok (r, trayErase tray job)
    ∧ trayFind (trayErase tray job) job = none
    ∧ getResult (trayErase tray job) job = .error (PyErr.keyError, 6)
    ∧ 6 > 5 := by
  have herased := trayFind_erase_of_nodup tray job hnd
  refine ⟨?_, herased, ?_, by omega⟩
  · rw [getResult, getResultAux, hfound]
  · rw [getResult]
    exact getResultAux_none (trayErase tray job) job herased 6 0 rfl (by omega)

/-- Witness for C5 at a concrete input: a tray holding one result for job
j1. -/
theorem claim_C5_witness :
    (trayFind [("j1", 42)] "j1" = some 42
      ∧ (([("j1", (42 : Nat))].map Prod.fst).Nodup))
    ∧ (getResult [("j1", (42 : Nat))] "j1" = .ok (42, trayErase [("j1", 42)] "j1")
      ∧ trayFind (trayErase [("j1", (42 : Nat))] "j1") "j1" = none
      ∧ getResult (trayErase [("j1", (42 : Nat))] "j1") "j1"
          = .error (PyErr.keyError, 6)
      ∧ 6 > 5) :=
  ⟨⟨by decide, by decide⟩,
    claim_C5_result_popped_exactly_once [("j1", 42)] "j1" 42 (by decide) (by decide)⟩

/-! ## Controller loop: ThreadManager._manage_threads_work
(src/src/api/main.py, lines 99-111)

new_thread_job_threshold is at least 1 (the constructor replaces a
non-positive value by 1), so the integer division is well defined. -/

/-- The desired worker count computed by the controller loop: Python floor
division of the queue size by the threshold, plus one, capped at
max_concurrent_threads. -/
def desiredWorkerCount (queueSize threshold maxThreads : Nat) : Nat :=
  let d := queueSize / threshold + 1
  if d ≤ maxThreads then d else maxThreads

/-- Modelled from the spec: the spec words the desired worker count as
min(ceil(queue_size / threshold) + 1, max_concurrent); this definition
follows those words for comparison with the source formula. -/
def specDesiredWorkerCount (queueSize threshold maxThreads : Nat) : Nat :=
  min ((queueSize + threshold - 1) / threshold + 1) maxThreads

/-- What one controller-loop iteration does. -/
inductive ManageAction
  | spawnOne
  | pruneAndIdle
deriving DecidableEq

/-- One iteration of _manage_threads_work: spawn exactly one worker from
the queue when desired - active is positive, otherwise prune finished
workers and idle briefly. -/
def manageThreadsWork (queueSize threshold maxThreads active : Nat) : ManageAction :=
  let desired := desiredWorkerCount queueSize threshold maxThreads
  if 0 < (desired : Int) - (active : Int) then ManageAction.spawnOne
  else ManageAction.pruneAndIdle

/-- Counterexample to C7: with a queue of 61 jobs, threshold 60 and cap 4
the source computes desired = 61 // 60 + 1 = 2 (floor division), while the
claim's formula gives min(ceil(61 / 60) + 1, 4) = 3; with 2 active workers
the code prunes instead of spawning as the claim predicts. -/
theorem claim_C7_counterexample :
    desiredWorkerCount 61 60 4 = 2
    ∧ specDesiredWorkerCount 61 60 4 = 3
    ∧ desiredWorkerCount 61 60 4 ≠ specDesiredWorkerCount 61 60 4
    ∧ manageThreadsWork 61 60 4 2 = ManageAction.pruneAndIdle := by
  refine ⟨rfl, rfl, by decide, rfl⟩

/-- Claim C7 as amended: the desired worker count is
min(floor(queue_size / threshold) + 1, max_concurrent), and one iteration
spawns exactly one worker if and only if the active count is below it. -/
theorem claim_C7_amended_controller_policy (queueSize threshold maxThreads active : Nat)
    (hthr : 0 < threshold) :
    desiredWorkerCount queueSize threshold maxThreads
        = min (queueSize / threshold + 1) maxThreads
    ∧ (manageThreadsWork queueSize threshold maxThreads active = ManageAction.spawnOne
        ↔ active < desiredWorkerCount queueSize threshold maxThreads) := by
  constructor
  · rw [desiredWorkerCount]
    split <;> omega
  · rw [manageThreadsWork]
    constructor
    · intro hs
      by_contra hlt
      rw [if_neg (by omega)] at hs
      exact absurd hs (by simp)
    · intro hlt
      rw [if_pos (by omega)]

/-- Witness for the amended C7 at a concrete input: queue 61, threshold 60,
cap 4, two active workers. -/
theorem claim_C7_amended_witness :
    (0 < 60)
    ∧ (desiredWorkerCount 61 60 4 = min (61 / 60 + 1) 4
      ∧ (manageThreadsWork 61 60 4 2 = ManageAction.spawnOne
          ↔ 2 < desiredWorkerCount 61 60 4)) :=
  ⟨by decide, claim_C7_amended_controller_policy 61 60 4 2 (by decide)⟩

/-! ## Rate limiter: RequestWorker._determine_interval
(src/src/api/main.py, lines 186-254)

Timestamps and intervals are rationals; the derived quantities follow the
constructor: base and burst intervals are 60 / the respective
requests-per-minute limit, and max_consecutive_burst_requests is the burst
interval times max_burst_length_seconds (a possibly fractional bound the
integer counter _consecutive_burst_requests is compared against). -/

/-- The throttling parameters of a RequestWorker. -/
structure RLParams where
  baseInterval : ℚ
  burstInterval : ℚ
  maxCBR : ℚ
  maxCBP : Nat
  cooldownLen : ℚ
deriving DecidableEq

/-- The mutable limiter state: _consecutive_burst_requests,
_consecutive_burst_periods, _burst_available_after_timestamp. -/
structure RLState where
  cbr : Nat
  cbp : Nat
  burstAfter : ℚ
deriving DecidableEq

/-- _determine_interval with an explicit recursion budget.  The source
recurses after completing a burst period; every such recursion increments
cbp while cbp < maxCBP, so maxCBP - cbp + 1 steps always suffice and the
budget-exhausted branch is unreachable from determineInterval below. -/
def determineIntervalFuel (p : RLParams) (now : ℚ) : Nat → RLState → ℚ × RLState
  | 0, s => (p.baseInterval, s)
  | fuel + 1, s =>
    if ¬ ((s.cbr : ℚ) < p.maxCBR) ∧ s.cbp < p.maxCBP then
      determineIntervalFuel p now fuel ⟨0, s.cbp + 1, now + p.cooldownLen⟩
    else if ¬ (now ≤ s.burstAfter) ∧ (s.cbr : ℚ) < p.maxCBR then
      (p.burstInterval, ⟨s.cbr + 1, s.cbp, s.burstAfter⟩)
    else (p.baseInterval, s)

/-- RequestWorker._determine_interval at time now. -/
def determineInterval (p : RLParams) (now : ℚ) (s : RLState) : ℚ × RLState :=
  determineIntervalFuel p now (p.maxCBP - s.cbp + 1) s

/-- determineInterval satisfies the source's recurrence, so the budget in
its definition is always sufficient. -/
lemma determineInterval_eq (p : RLParams) (now : ℚ) (s : RLState) :
    determineInterval p now s
      = if ¬ ((s.cbr : ℚ) < p.maxCBR) ∧ s.cbp < p.maxCBP then
          determineInterval p now ⟨0, s.cbp + 1, now + p.cooldownLen⟩
        else if ¬ (now ≤ s.burstAfter) ∧ (s.cbr : ℚ) < p.maxCBR then
          (p.burstInterval, ⟨s.cbr + 1, s.cbp, s.burstAfter⟩)
        else (p.baseInterval, s) := by
  by_cases h : ¬ ((s.cbr : ℚ) < p.maxCBR) ∧ s.cbp < p.maxCBP
  · rw [if_pos h]
    unfold determineInterval
    conv_lhs => rw [determineIntervalFuel]
    rw [if_pos h]
    have he : p.maxCBP - s.cbp = p.maxCBP - (s.cbp + 1) + 1 := by omega
    rw [he]
  · rw [if_neg h]
    unfold determineInterval
    conv_lhs => rw [determineIntervalFuel]
    rw [if_neg h]

lemma cbp_le_fuel (p : RLParams) (now : ℚ) :
    ∀ (f : Nat) (s : RLState), s.cbp ≤ (determineIntervalFuel p now f s).2.cbp := by
  intro f
  induction f with
  | zero => intro s; exact le_refl _
  | succ f ih =>
    intro s
    rw [determineIntervalFuel]
    split
    · have h2 : s.cbp + 1
          ≤ (determineIntervalFuel p now f ⟨0, s.cbp + 1, now + p.cooldownLen⟩).2.cbp :=
        ih ⟨0, s.cbp + 1, now + p.cooldownLen⟩
      omega
    · split <;> exact le_refl _

lemma cbp_bounded_fuel (p : RLParams) (now : ℚ) :
    ∀ (f : Nat) (s : RLState), s.cbp ≤ p.maxCBP →
      (determineIntervalFuel p now f s).2.cbp ≤ p.maxCBP := by
  intro f
  induction f with
  | zero => intro s hs; exact hs
  | succ f ih =>
    intro s hs
    rw [determineIntervalFuel]
    split
    · next h =>
      exact ih ⟨0, s.cbp + 1, now + p.cooldownLen⟩ (by show s.cbp + 1 ≤ p.maxCBP; omega)
    · split <;> exact hs

lemma burstAfter_of_cbp_eq (p : RLParams) (now : ℚ) :
    ∀ (f : Nat) (s : RLState),
      (determineIntervalFuel p now f s).2.cbp = s.cbp →
      (determineIntervalFuel p now f s).2.burstAfter = s.burstAfter := by
  intro f
  induction f with
  | zero => intro s _; rfl
  | succ f ih =>
    intro s
    rw [determineIntervalFuel]
    split
    · intro hcbp
      have h2 : s.cbp + 1
          ≤ (determineIntervalFuel p now f ⟨0, s.cbp + 1, now + p.cooldownLen⟩).2.cbp :=
        cbp_le_fuel p now f ⟨0, s.cbp + 1, now + p.cooldownLen⟩
      omega
    · split <;> intro _ <;> rfl

lemma burstAfter_of_cbp_ne (p : RLParams) (now : ℚ) :
    ∀ (f : Nat) (s : RLState),
      (determineIntervalFuel p now f s).2.cbp ≠ s.cbp →
      (determineIntervalFuel p now f s).2.burstAfter = now + p.cooldownLen := by
  intro f
  induction f with
  | zero => intro s h; exact absurd rfl h
  | succ f ih =>
    intro s
    rw [determineIntervalFuel]
    split
    · intro _
      by_cases hc : (determineIntervalFuel p now f ⟨0, s.cbp + 1, now + p.cooldownLen⟩).2.cbp
          = s.cbp + 1
      · exact burstAfter_of_cbp_eq p now f ⟨0, s.cbp + 1, now + p.cooldownLen⟩ hc
      · exact ih ⟨0, s.cbp + 1, now + p.cooldownLen⟩ hc
    · split <;> intro h <;> exact absurd rfl h

lemma base_during_cooldown_fuel (p : RLParams) (now : ℚ)
    (hcd : 0 ≤ p.cooldownLen) :
    ∀ (f : Nat) (s : RLState), now ≤ s.burstAfter →
      (determineIntervalFuel p now f s).1 = p.baseInterval := by
  intro f
  induction f with
  | zero => intro s _; rfl
  | succ f ih =>
    intro s hcool
    rw [determineIntervalFuel]
    split
    · exact ih ⟨0, s.cbp + 1, now + p.cooldownLen⟩
        (by show now ≤ now + p.cooldownLen; linarith)
    · split
      · next h => exact absurd hcool h.1
      · rfl

lemma burst_step_fuel (p : RLParams) (now : ℚ) (hcd : 0 ≤ p.cooldownLen)
    (hne : p.burstInterval ≠ p.baseInterval) :
    ∀ (f : Nat) (s : RLState),
      (determineIntervalFuel p now f s).1 = p.burstInterval →
      ((s.cbr : ℚ) < p.maxCBR ∧ ¬ (now ≤ s.burstAfter)
        ∧ (determineIntervalFuel p now f s).2 = ⟨s.cbr + 1, s.cbp, s.burstAfter⟩) := by
  intro f
  induction f with
  | zero => intro s h; exact absurd h.symm hne
  | succ f ih =>
    intro s
    rw [determineIntervalFuel]
    split
    · intro h
      have hb := base_during_cooldown_fuel p now hcd f
        ⟨0, s.cbp + 1, now + p.cooldownLen⟩ (by show now ≤ now + p.cooldownLen; linarith)
      rw [hb] at h
      exact absurd h.symm hne
    · split
      · next h2 => intro _; exact ⟨h2.2, h2.1, rfl⟩
      · intro h; exact absurd h.symm hne

/-- Burst-return characterisation of the wrapper. -/
lemma burst_step_di (p : RLParams) (now : ℚ) (s : RLState)
    (hcd : 0 ≤ p.cooldownLen) (hne : p.burstInterval ≠ p.baseInterval)
    (h : (determineInterval p now s).1 = p.burstInterval) :
    ((s.cbr : ℚ) < p.maxCBR ∧ ¬ (now ≤ s.burstAfter)
      ∧ (determineInterval p now s).2 = ⟨s.cbr + 1, s.cbp, s.burstAfter⟩) :=
  burst_step_fuel p now hcd hne (p.maxCBP - s.cbp + 1) s h

/-- Burst branch of the wrapper in the forward direction. -/
lemma determineInterval_burst (p : RLParams) (now : ℚ) (s : RLState)
    (h1 : (s.cbr : ℚ) < p.maxCBR) (h2 : ¬ (now ≤ s.burstAfter)) :
    determineInterval p now s = (p.burstInterval, ⟨s.cbr + 1, s.cbp, s.burstAfter⟩) := by
  rw [determineInterval_eq, if_neg (by tauto), if_pos ⟨h2, h1⟩]

/-- The intervals returned by successive _determine_interval calls at the
given times, threading the limiter state. -/
def runIntervals (p : RLParams) : RLState → List ℚ → List ℚ × RLState
  | s, [] => ([], s)
  | s, t :: ts =>
    ((determineInterval p t s).1 :: (runIntervals p (determineInterval p t s).2 ts).1,
      (runIntervals p (determineInterval p t s).2 ts).2)

lemma runIntervals_burst_chain (p : RLParams) (hcd : 0 ≤ p.cooldownLen)
    (hne : p.burstInterval ≠ p.baseInterval) :
    ∀ (ts : List ℚ) (s : RLState),
      (runIntervals p s ts).1.all (fun i => decide (i = p.burstInterval)) = true →
      ts = [] ∨ ((s.cbr : ℚ) + ts.length < p.maxCBR + 1) := by
  intro ts
  induction ts with
  | nil => intro s _; left; rfl
  | cons t ts ih =>
    intro s hall
    right
    simp only [runIntervals, List.all_cons, Bool.and_eq_true, decide_eq_true_eq] at hall
    obtain ⟨hhead, hrest⟩ := hall
    obtain ⟨hlt, hcool, hs2⟩ := burst_step_di p t s hcd hne hhead
    rcases ih (determineInterval p t s).2 hrest with rfl | hlen
    · simp only [List.length_cons, List.length_nil]
      push_cast
      linarith
    · rw [hs2] at hlen
      simp only [List.length_cons] at hlen ⊢
      push_cast at hlen ⊢
      linarith

lemma runIntervals_cbp (p : RLParams) :
    ∀ (ts : List ℚ) (s : RLState), s.cbp ≤ p.maxCBP →
      (runIntervals p s ts).2.cbp ≤ p.maxCBP := by
  intro ts
  induction ts with
  | nil => intro s hs; exact hs
  | cons t ts ih =>
    intro s hs
    simp only [runIntervals]
    exact ih (determineInterval p t s).2 (cbp_bounded_fuel p t (p.maxCBP - s.cbp + 1) s hs)

/-- The throttling parameters the source passes to MediaCacheWorker
(src/src/api/main.py, lines 380-389): base 500 rpm so base interval
60/500 s, burst 1000 rpm so burst interval 60/1000 s,
max_burst_length_seconds 120 so max_consecutive_burst_requests is
(60/1000)*120 = 7.2, max_consecutive_burst_periods 4, cooldown 30 s. -/
def mediaWorkerParams : RLParams :=
  ⟨60 / 500, 60 / 1000, 60 / 1000 * 120, 4, 30⟩

/-- Counterexample to C6 as stated: with the MediaCacheWorker parameters of
the source the limiter returns the burst interval 8 times consecutively
from a fresh state, and 8 exceeds max_consecutive_burst_requests = 7.2, so
the limiter does return the burst interval more than
max_consecutive_burst_requests times consecutively before any base
interval. -/
theorem claim_C6_counterexample :
    (runIntervals mediaWorkerParams ⟨0, 0, 0⟩ [1, 2, 3, 4, 5, 6, 7, 8]).1
      = List.replicate 8 mediaWorkerParams.burstInterval
    ∧ mediaWorkerParams.maxCBR < 8
    ∧ mediaWorkerParams.burstInterval ≠ mediaWorkerParams.baseInterval := by
  have step : ∀ (t : ℚ) (k : Nat), ¬ t ≤ 0 → (k : ℚ) < mediaWorkerParams.maxCBR →
      determineInterval mediaWorkerParams t ⟨k, 0, 0⟩
        = (mediaWorkerParams.burstInterval, ⟨k + 1, 0, 0⟩) := by
    intro t k h1 h2
    exact determineInterval_burst mediaWorkerParams t ⟨k, 0, 0⟩ h2 h1
  refine ⟨?_, by norm_num [mediaWorkerParams], by norm_num [mediaWorkerParams]⟩
  rw [show (8 : Nat) = 0 + 1 + 1 + 1 + 1 + 1 + 1 + 1 + 1 from rfl]
  simp only [runIntervals]
  rw [step 1 0 (by norm_num) (by norm_num [mediaWorkerParams])]
  rw [step 2 (0 + 1) (by norm_num) (by norm_num [mediaWorkerParams])]
  rw [step 3 (0 + 1 + 1) (by norm_num) (by norm_num [mediaWorkerParams])]
  rw [step 4 (0 + 1 + 1 + 1) (by norm_num) (by norm_num [mediaWorkerParams])]
  rw [step 5 (0 + 1 + 1 + 1 + 1) (by norm_num) (by norm_num [mediaWorkerParams])]
  rw [step 6 (0 + 1 + 1 + 1 + 1 + 1) (by norm_num) (by norm_num [mediaWorkerParams])]
  rw [step 7 (0 + 1 + 1 + 1 + 1 + 1 + 1) (by norm_num) (by norm_num [mediaWorkerParams])]
  rw [step 8 (0 + 1 + 1 + 1 + 1 + 1 + 1 + 1) (by norm_num) (by norm_num [mediaWorkerParams])]
  simp [List.replicate]

/-- Claim C6 as amended: (1) the limiter never returns the burst interval
more than ceil(max_consecutive_burst_requests) times consecutively — any
all-burst run of n calls has (n : ℚ) < max_consecutive_burst_requests + 1,
the extra call over the bound occurring exactly when the bound is
fractional; (2) _consecutive_burst_periods never exceeds
max_consecutive_burst_periods; (3) while a cooldown is active only the
base interval is returned; (4) any call that completes a burst period
starts a cooldown of exactly burst_cooldown_length_seconds. -/
theorem claim_C6_amended_rate_limiter (p : RLParams) (s s₀ : RLState)
    (ts : List ℚ) (t now : ℚ)
    (hcd : 0 ≤ p.cooldownLen) (hne : p.burstInterval ≠ p.baseInterval)
    (hpos : 0 ≤ p.maxCBR) :
    ((runIntervals p s ts).1.all (fun i => decide (i = p.burstInterval)) = true →
        (ts.length : ℚ) < p.maxCBR + 1)
    ∧ (s.cbp ≤ p.maxCBP → (runIntervals p s ts).2.cbp ≤ p.maxCBP)
    ∧ (t ≤ s₀.burstAfter → (determineInterval p t s₀).1 = p.baseInterval)
    ∧ ((determineInterval p now s₀).2.cbp ≠ s₀.cbp →
        (determineInterval p now s₀).2.burstAfter = now + p.cooldownLen) := by
  refine ⟨?_, fun hs => runIntervals_cbp p ts s hs, ?_, ?_⟩
  · intro hall
    rcases runIntervals_burst_chain p hcd hne ts s hall with rfl | hlen
    · simp only [List.length_nil, Nat.cast_zero]
      linarith
    · have hnn : (0 : ℚ) ≤ s.cbr := by positivity
      linarith
  · intro hc
    exact base_during_cooldown_fuel p t hcd (p.maxCBP - s₀.cbp + 1) s₀ hc
  · intro hneq
    exact burstAfter_of_cbp_ne p now (p.maxCBP - s₀.cbp + 1) s₀ hneq

/-- Witness for the amended C6 at a concrete input: the BaseImageBoardApi
parameters (base 60 rpm, burst 120 rpm, max_consecutive_burst_requests 30,
one burst period, cooldown 60 s), a two-call run, a call during an active
cooldown, and a call at time 7. -/
theorem claim_C6_amended_witness :
    ((0 : ℚ) ≤ (⟨1, 1/2, 30, 1, 60⟩ : RLParams).cooldownLen
      ∧ (⟨1, 1/2, 30, 1, 60⟩ : RLParams).burstInterval
          ≠ (⟨1, 1/2, 30, 1, 60⟩ : RLParams).baseInterval
      ∧ (0 : ℚ) ≤ (⟨1, 1/2, 30, 1, 60⟩ : RLParams).maxCBR)
    ∧ (((runIntervals ⟨1, 1/2, 30, 1, 60⟩ ⟨0, 0, 0⟩ [1, 2]).1.all
          (fun i => decide (i = (⟨1, 1/2, 30, 1, 60⟩ : RLParams).burstInterval)) = true →
        ((([1, 2] : List ℚ).length : ℚ) < (⟨1, 1/2, 30, 1, 60⟩ : RLParams).maxCBR + 1))
      ∧ ((⟨0, 0, 0⟩ : RLState).cbp ≤ (⟨1, 1/2, 30, 1, 60⟩ : RLParams).maxCBP →
          (runIntervals ⟨1, 1/2, 30, 1, 60⟩ ⟨0, 0, 0⟩ [1, 2]).2.cbp
            ≤ (⟨1, 1/2, 30, 1, 60⟩ : RLParams).maxCBP)
      ∧ ((3 : ℚ) ≤ (⟨0, 0, 5⟩ : RLState).burstAfter →
          (determineInterval ⟨1, 1/2, 30, 1, 60⟩ 3 ⟨0, 0, 5⟩).1
            = (⟨1, 1/2, 30, 1, 60⟩ : RLParams).baseInterval)
      ∧ ((determineInterval ⟨1, 1/2, 30, 1, 60⟩ 7 ⟨0, 0, 5⟩).2.cbp
            ≠ (⟨0, 0, 5⟩ : RLState).cbp →
          (determineInterval ⟨1, 1/2, 30, 1, 60⟩ 7 ⟨0, 0, 5⟩).2.burstAfter
            = 7 + (⟨1, 1/2, 30, 1, 60⟩ : RLParams).cooldownLen)) :=
  ⟨⟨by norm_num, by norm_num, by norm_num⟩,
    claim_C6_amended_rate_limiter ⟨1, 1/2, 30, 1, 60⟩ ⟨0, 0, 0⟩ ⟨0, 0, 5⟩ [1, 2] 3 7
      (by norm_num) (by norm_num) (by norm_num)⟩

/-! ## Posts iterator construction: ImageBoardPostsIterator.__init__
(src/src/api/iterators.py, lines 291-322) and ImageBoardApi.list_posts
(src/src/api/main.py, lines 428-440) -/

/-- The reserved pagination-control metatags. -/
def bannedMetatags : List String := ["order", "limit", "page", "tags"]

/-- The characters of a tag before its first colon: tag.split(':')[0]. -/
def takeUntilColon : List Char → List Char
  | [] => []
  | c :: cs => if c = ':' then [] else c :: takeUntilColon cs

/-- Whether a colon occurs in the tag. -/
def containsColon : List Char → Bool
  | [] => false
  | c :: cs => if c = ':' then true else containsColon cs

/-- Whether a tag makes the source execute tags_to_remove.add(tag): it
contains a colon and its metatag part is reserved. -/
def bannedMetatagHit (tag : String) : Bool :=
  containsColon tag.data
    && decide (String.mk (takeUntilColon tag.data) ∈ bannedMetatags)

/-- The loop that builds tags_to_remove: the source accumulates into a
Python list with .add, a method lists do not have, so the first reserved
tag raises AttributeError; with no reserved tag the loop completes and the
removal list stays empty. -/
def collectBannedTags : List String → Except PyErr (List String)
  | [] => .ok []
  | tag :: rest =>
    if bannedMetatagHit tag then .error PyErr.attributeError
    else collectBannedTags rest

/-- ImageBoardPostsIterator.__init__ up to the construction of the tags
request parameter: collect the reserved tags (AttributeError on the first
hit), drop the collected tags, assert the tag budget (fewer than 40),
append the canonical ordering token and sort. -/
def postsIteratorTags (tags : List String) : Except PyErr (List String) :=
  match collectBannedTags tags with
  | .error e => .error e
  | .ok toRemove =>
    let kept := tags.filter (fun tag => decide (tag ∉ toRemove))
    if kept.length < 40 then .ok (sortStrings (kept ++ ["order:id"]))
    else .error PyErr.assertionError

/-- ImageBoardApi.list_posts tag-budget assertion: the caller tags plus the
base search tags may not exceed MAX_TAGS_PER_REQUEST = 40; the assertion
runs before the iterator is constructed and before any request. -/
def listPostsBudget (tags baseTags : List String) : Except PyErr Unit :=
  if tags.length + baseTags.length ≤ 40 then .ok () else .error PyErr.assertionError

/-- Claim C8 (code bug evaluation): a caller-supplied tag with a reserved
metatag prefix is not stripped: the source appends it to the list
tags_to_remove with .add, a method Python lists do not have, so
construction raises AttributeError instead of completing normally. -/
theorem claim_C8_banned_metatag_raises :
    postsIteratorTags ["order:score", "cat"] = .error PyErr.attributeError := rfl

lemma collectBannedTags_clean :
    ∀ tags : List String, tags.all (fun t => !bannedMetatagHit t) = true →
      collectBannedTags tags = .ok [] := by
  intro tags
  induction tags with
  | nil => intro _; rfl
  | cons tag rest ih =>
    intro hall
    simp only [List.all_cons, Bool.and_eq_true, Bool.not_eq_true'] at hall
    rw [collectBannedTags, if_neg (by simp [hall.1])]
    exact ih (by simp only [List.all_eq_true] at hall ⊢; exact fun t ht => hall.2 t ht)

/-- Claim C10: a posts query with 41 distinct ordinary tags fails the
tag-budget validation before any HTTP request: list_posts asserts
len(tags) + len(base_search_tags) <= 40 first, and
ImageBoardPostsIterator.__init__ asserts len(tags) < 40 after the strip
(which keeps all 41 tags when none carries a reserved metatag); both raise
AssertionError during construction, before any request is issued. -/
theorem claim_C10_41_tags_fail_validation (tags baseTags : List String)
    (hlen : tags.length = 41) (hnd : tags.Nodup)
    (hclean : tags.all (fun t => !bannedMetatagHit t) = true) :
    listPostsBudget tags baseTags = .error PyErr.assertionError
    ∧ postsIteratorTags tags = .error PyErr.assertionError := by
  constructor
  · rw [listPostsBudget, if_neg (by omega)]
  · rw [postsIteratorTags, collectBannedTags_clean tags hclean]
    have hfilter : tags.filter (fun tag => decide (tag ∉ ([] : List String))) = tags := by
      simp
    simp only [hfilter]
    rw [if_neg (by omega)]

/-- Forty-one distinct ordinary tags. -/
def fortyOneTags : List String :=
  ["t1", "t2", "t3", "t4", "t5", "t6", "t7", "t8", "t9", "t10",
   "t11", "t12", "t13", "t14", "t15", "t16", "t17", "t18", "t19", "t20",
   "t21", "t22", "t23", "t24", "t25", "t26", "t27", "t28", "t29", "t30",
   "t31", "t32", "t33", "t34", "t35", "t36", "t37", "t38", "t39", "t40",
   "t41"]

/-- Witness for C10 at a concrete input: 41 distinct plain tags and one
base search tag. -/
theorem claim_C10_witness :
    (fortyOneTags.length = 41 ∧ fortyOneTags.Nodup
      ∧ fortyOneTags.all (fun t => !bannedMetatagHit t) = true)
    ∧ (listPostsBudget fortyOneTags ["rating:s"] = .error PyErr.assertionError
      ∧ postsIteratorTags fortyOneTags = .error PyErr.assertionError) :=
  ⟨⟨by decide, by decide, by decide⟩,
    claim_C10_41_tags_fail_validation fortyOneTags ["rating:s"]
      (by decide) (by decide) (by decide)⟩

end ImageBoardInsights
